import Mathlib

/-!
Shallow embedding of `biobox/classes/structure.py` (class `Structure`): the
multi-conformation point-cloud store and the geometric operations on it that
the specification describes.

Modelling conventions, shared by all definitions below:

* Machine floats are modelled by exact rationals `ℚ`.  All source arithmetic
  (`+`, `-`, `*`, `/`, `abs`, comparisons) is translated verbatim; the only
  systematic change is that final `np.sqrt` calls are omitted, so RMSD-like
  functions return the *square* of the value the source returns (`√` is a
  monotone bijection on nonnegatives and has no exact rational counterpart).
* A conformation (a rank-2 `n×3` numpy array) is a `List V3`; the ensemble
  tensor `self.coordinates` (rank-3, `m×n×3`) is a `List (List V3)`.
  `Structure.clear` builds an array whose *last* axis is empty, which a
  `List V3` cannot represent; it is therefore modelled separately, at the
  level of nested lists of scalars, in the `StructureT` section below.
* `self.current` is a Python `int` and numpy indexing accepts negative
  values (wrapping from the end) — it is an `ℤ` here, and `npGet`/`npSet`
  model numpy's index semantics including the wrap-around.
* `self.points` is in the source a numpy *view* of `self.coordinates[current]`,
  re-derived after every reallocation; here it is always derived
  (`Structure.points`), which coincides with the source whenever the source's
  own re-derivation discipline holds.
* Of the `properties` dictionary only `center` is touched by the functions
  under study; it is a plain field.  `radius` and other keys are irrelevant
  to the claims and omitted.
* `raise Exception(...)` becomes `Except.error` with the message's fixed
  prefix; methods that mutate `self` return `Structure × Except String α`
  so that the state at the moment of a raise is preserved, exactly as a
  Python exception leaves the object.
* numpy's SVD and eigendecomposition are external library calls in the
  source (the spec lists them as capabilities of a collaborator); they are
  parameters (`SvdOracle`, an `eig` function argument) of the embedded
  functions.  Theorems either hold for every oracle or, in counterexamples,
  instantiate the oracle with a concrete factorisation that is proved to be
  a genuine SVD of the concrete input matrix.
-/

/-! ### Vectors in 3-space -/

/-- Coordinates of one point: a 3-vector of rationals. -/
abbrev V3 : Type := ℚ × ℚ × ℚ

/-- Componentwise addition (numpy broadcast `+`). -/
def vadd (a b : V3) : V3 := (a.1 + b.1, a.2.1 + b.2.1, a.2.2 + b.2.2)

/-- Componentwise subtraction (numpy broadcast `-`). -/
def vsub (a b : V3) : V3 := (a.1 - b.1, a.2.1 - b.2.1, a.2.2 - b.2.2)

/-- Scalar times vector. -/
def smulV (c : ℚ) (v : V3) : V3 := (c * v.1, c * v.2.1, c * v.2.2)

/-- Dot product of two 3-vectors. -/
def vdot (a b : V3) : ℚ := a.1 * b.1 + a.2.1 * b.2.1 + a.2.2 * b.2.2

/-- Sum of a list of 3-vectors (`np.sum(m, axis=0)`). -/
def vsum (l : List V3) : V3 := l.foldr vadd (0, 0, 0)

/-- Divide a 3-vector by a natural number (numpy `/ float(L)`; in the source a
zero divisor never occurs on the paths the theorems traverse). -/
def vdiv (v : V3) (n : ℕ) : V3 := (v.1 / n, v.2.1 / n, v.2.2 / n)

/-- One conformation: the list of its points. -/
abbrev Frame : Type := List V3

/-- Total of the squared entries of a centred conformation:
`np.sum(np.sum(m * m, axis=0), axis=0)`. -/
def sqsum (l : List V3) : ℚ := (l.map (fun p => vdot p p)).foldr (· + ·) 0

/-! ### 3×3 matrices (rows) -/

/-- A 3×3 matrix, stored as its three rows. -/
abbrev M3 : Type := V3 × V3 × V3

/-- Row vector times matrix: `np.dot(point, M)`, the source's convention in
`apply_transformation` (`point' = point · M`). -/
def vecMulMat (p : V3) (M : M3) : V3 :=
  vadd (smulV p.1 M.1) (vadd (smulV p.2.1 M.2.1) (smulV p.2.2 M.2.2))

/-- Matrix product `np.dot(A, B)`: row `i` of the product is row `i` of `A`
times `B`. -/
def matMul (A B : M3) : M3 :=
  (vecMulMat A.1 B, vecMulMat A.2.1 B, vecMulMat A.2.2 B)

/-- Determinant of a 3×3 matrix (`np.linalg.det`). -/
def det3 (M : M3) : ℚ :=
  M.1.1 * (M.2.1.2.1 * M.2.2.2.2 - M.2.1.2.2 * M.2.2.2.1)
    - M.1.2.1 * (M.2.1.1 * M.2.2.2.2 - M.2.1.2.2 * M.2.2.1)
    + M.1.2.2 * (M.2.1.1 * M.2.2.2.1 - M.2.1.2.1 * M.2.2.1)

/-- Transpose of a 3×3 matrix. -/
def transpose3 (M : M3) : M3 :=
  ((M.1.1, M.2.1.1, M.2.2.1), (M.1.2.1, M.2.1.2.1, M.2.2.2.1),
   (M.1.2.2, M.2.1.2.2, M.2.2.2.2))

/-- The 3×3 identity matrix. -/
def idM3 : M3 := ((1, 0, 0), (0, 1, 0), (0, 0, 1))

/-- Outer product `p ⬝ qᵀ` of two 3-vectors, as a 3×3 matrix. -/
def outer (p q : V3) : M3 := (smulV p.1 q, smulV p.2.1 q, smulV p.2.2 q)

/-- Entrywise sum of two 3×3 matrices. -/
def madd (A B : M3) : M3 := (vadd A.1 B.1, vadd A.2.1 B.2.1, vadd A.2.2 B.2.2)

/-- Cross-covariance `np.dot(np.transpose(m2), m1)` of two equal-length point
lists: `X[a][b] = Σ_k m2[k][a] * m1[k][b]`.  (numpy rejects unequal lengths;
the `zip` silently truncates, and every theorem that uses `crossMat` carries
the rectangularity hypothesis making the lengths equal.) -/
def crossMat (m2 m1 : List V3) : M3 :=
  (List.zip m2 m1).foldr (fun pq acc => madd (outer pq.1 pq.2) acc)
    ((0, 0, 0), (0, 0, 0), (0, 0, 0))

/-! ### numpy indexing on the frame axis -/

/-- numpy read `l[i]` on axis 0 with a possibly negative integer index:
a negative `i` wraps to `len(l) + i`; out of range (either sign) is `none`
(numpy raises `IndexError`). -/
def npGet {α : Type} (l : List α) (i : ℤ) : Option α :=
  let j : ℤ := if i < 0 then (l.length : ℤ) + i else i
  if 0 ≤ j ∧ j < (l.length : ℤ) then l.get? j.toNat else none

/-- numpy write `l[i] = a` on axis 0 (same index semantics as `npGet`); a
write at an invalid index leaves the list unchanged — the source only writes
at indices it has just selected, so this branch is never exercised by the
theorems. -/
def npSet {α : Type} (l : List α) (i : ℤ) (a : α) : List α :=
  let j : ℤ := if i < 0 then (l.length : ℤ) + i else i
  if 0 ≤ j ∧ j < (l.length : ℤ) then l.set j.toNat a else l

/-! ### The store -/

/-- The point-cloud store of `structure.py`: the ensemble tensor
`self.coordinates`, the cursor `self.current`, and the cached
`self.properties['center']`. -/
structure Structure where
  coordinates : List Frame
  current : ℤ
  center : V3
deriving DecidableEq

/-- The derived active-frame view `self.points = self.coordinates[self.current]`
(empty when the cursor is invalid; the source would hold a stale pointer
there, a state none of the claims reach). -/
def Structure.points (s : Structure) : Frame :=
  (npGet s.coordinates s.current).getD []

/-- Frame `i` of the ensemble, for a loop index `i` that the source has
already bounded by `len(self.coordinates)`. -/
def Structure.frame (s : Structure) (i : ℕ) : Frame :=
  (s.coordinates.get? i).getD []

/-- Number of stored scalar coordinates is zero iff every frame is empty;
`self.coordinates.size == 0` of the source.  (The degenerate numpy shapes
with an empty *last* axis, e.g. the constructor default `(1, 2, 0)`, also
have size 0; they collapse to frames with zero points here, which leaves
the `size == 0` test — the only way `add_xyz` consumes the shape — intact.) -/
def Structure.sizeZero (s : Structure) : Bool :=
  s.coordinates.all (fun f => f.length = 0)

/-- `get_center` of the source, as a function of the active frame: the mean
point, or the origin for an empty frame (the explicit guard in the source). -/
def get_center_of (f : Frame) : V3 :=
  if f.length = 0 then (0, 0, 0) else vdiv (vsum f) f.length

/-- `Structure.set_current(pos)`: accept any `pos < len(coordinates)`
(including negative `pos`, which numpy then wraps), move the cursor, and
recompute `center` for the new frame.  The returned pair is (object state,
outcome): when the numpy access itself fails (`pos < -len`), `self.current`
has already been overwritten — the source assigns `self.current = pos` before
dereferencing `self.coordinates[self.current]`. -/
def Structure.set_current (s : Structure) (pos : ℤ) :
    Structure × Except String Unit :=
  if pos < (s.coordinates.length : ℤ) then
    match npGet s.coordinates pos with
    | some f => ({ s with current := pos, center := get_center_of f }, .ok ())
    | none => ({ s with current := pos },
        .error "IndexError: index out of bounds for axis 0")
  else
    (s, .error "ERROR: position requested, but only fewer conformations available")

/-- Argument of `add_xyz`: a rank-2 array (one conformation) or a rank-3
array (a batch).  Any other rank makes the source raise before touching the
store; that branch is outside this typed argument. -/
inductive NpCoords : Type
| frame2 (f : Frame)
| frames3 (c : List Frame)

/-- `Structure.add_xyz(coords)`: on an empty store (`size == 0`) install the
new coordinates and select frame 0; otherwise concatenate and call
`set_current(self.current + 1)` (the source's comment says "set new frame to
the first of the newly inserted ones"). -/
def Structure.add_xyz (s : Structure) (coords : NpCoords) :
    Structure × Except String Unit :=
  match s.sizeZero, coords with
  | true, .frames3 c => Structure.set_current { s with coordinates := c } 0
  | true, .frame2 f => Structure.set_current { s with coordinates := [f] } 0
  | false, .frames3 c =>
      Structure.set_current { s with coordinates := s.coordinates ++ c }
        (s.current + 1)
  | false, .frame2 f =>
      Structure.set_current { s with coordinates := s.coordinates ++ [f] }
        (s.current + 1)

/-- `Structure.delete_xyz(index)`: drop frame `index` (`np.delete(..., axis=0)`
with a valid index), then re-select `index - 1`, or `0` when the first frame
was deleted. -/
def Structure.delete_xyz (s : Structure) (index : ℕ) :
    Structure × Except String Unit :=
  let s1 : Structure := { s with coordinates := s.coordinates.eraseIdx index }
  if index > 0 then s1.set_current ((index : ℤ) - 1) else s1.set_current 0

/-- `Structure.translate(x, y, z)`: shift the cached center and every point
of the active frame by `(x, y, z)`.  (The source's fallback for a missing
`center` key never fires here: the field always exists.) -/
def Structure.translate (s : Structure) (x y z : ℚ) : Structure :=
  { s with
    center := vadd s.center (x, y, z),
    coordinates := npSet s.coordinates s.current
      (s.points.map (fun p => vadd p (x, y, z))) }

/-- `Structure.apply_transformation(M)`: overwrite the active frame with
`np.dot(self.points, M)`.  The cached center is *not* refreshed (faithful to
the source, where it goes stale here). -/
def Structure.apply_transformation (s : Structure) (M : M3) : Structure :=
  { s with
    coordinates := npSet s.coordinates s.current
      (s.points.map (fun p => vecMulMat p M)) }

/-! ### Superposition engine -/

/-- The `points_index` argument of the RMSD methods: the default `[]`, a list
of point indices, or a value of the wrong type (the source's final `else`
branch, which raises). -/
inductive PointsArg : Type
| plist (l : List ℕ)
| invalid

/-- The three-way selection the source performs on `points_index`:
`if len(points_index) == 0` take the whole conformation, `elif` a list take
the indexed subset (numpy raises `IndexError` on an out-of-range entry),
`else` raise. -/
def pidxSelect (pidx : PointsArg) (f : Frame) : Except String Frame :=
  match pidx with
  | .plist [] => .ok f
  | .plist l =>
      if l.all (fun i => i < f.length) then
        .ok (l.map (fun i => (f.get? i).getD (0, 0, 0)))
      else .error "IndexError: index out of bounds for axis 0"
  | .invalid =>
      .error "ERROR: please, provide me with a list of indices to compute RMSD"

/-- Result triple of `np.linalg.svd`. -/
structure SvdResult : Type where
  V : M3
  S : V3
  Wt : M3
deriving DecidableEq

/-- The SVD collaborator (`np.linalg.svd` on a 3×3 input), a parameter of the
embedding, as in the spec's external-interface section. -/
abbrev SvdOracle : Type := M3 → SvdResult

/-- Sum of the three singular values, `sum(S)`. -/
def sumV (v : V3) : ℚ := v.1 + v.2.1 + v.2.2

/-- `S[-1] = -S[-1]`: negate the last singular value. -/
def negLast (v : V3) : V3 := (v.1, v.2.1, -v.2.2)

/-- `V[:, -1] = -V[:, -1]`: negate the last column of a row-major 3×3 matrix. -/
def flipLastCol (M : M3) : M3 :=
  ((M.1.1, M.1.2.1, -M.1.2.2), (M.2.1.1, M.2.1.2.1, -M.2.1.2.2),
   (M.2.2.1, M.2.2.2.1, -M.2.2.2.2))

/-- Centre a point list on its own centroid (`m -= np.sum(m, axis=0)/L` with
`L = len(m)`). -/
def centerFrame (f : Frame) : Frame :=
  f.map (fun p => vsub p (vdiv (vsum f) f.length))

/-- The matrix `rmsd_one_vs_all` applies to a conformation when `align` is
true: `np.dot(V, Wt)` of the oracle's *raw* output on the cross-covariance of
the centred conformation against the centred reference — the source applies
it before the reflection test runs.  (`L` is the reference length, which the
source also uses to centre `m2`.) -/
def rovRotation (svd : SvdOracle) (m1c : List V3) (L : ℕ) (m2 : List V3) : M3 :=
  let COM2 := vdiv (vsum m2) L
  let m2c := m2.map (fun p => vsub p COM2)
  let r := svd (crossMat m2c m1c)
  matMul r.V r.Wt

/-- Loop body of `rmsd_one_vs_all` over the frame indices `idxs`
(`for i in xrange(0, len(self.coordinates), 1)`), accumulating the per-frame
values in reverse (`RMSD.append`).  Mirrors the source's statement order: the
reference frame contributes `0.0`; otherwise select, centre, form `E0`, run
the SVD; when `align` is set, `set_current(i)` then apply `np.dot(V, Wt)`;
only *afterwards* test `det(V)·det(Wt) == -1` and flip `S[-1]` (the source
also flips `V[:, -1]`, which no later statement reads); finally accumulate
`abs((E0 - 2·sum(S)) / L)` — the square of the source's `np.sqrt` value. -/
def rovLoop (svd : SvdOracle) (pidx : PointsArg) (align : Bool) (ref : ℕ)
    (m1c : List V3) (m1sum : ℚ) (L : ℕ) :
    List ℕ → Structure → List ℚ → Structure × Except String (List ℚ)
  | [], s, acc => (s, .ok acc.reverse)
  | i :: rest, s, acc =>
    if i = ref then rovLoop svd pidx align ref m1c m1sum L rest s (0 :: acc)
    else
      match pidxSelect pidx (s.frame i) with
      | .error e => (s, .error e)
      | .ok m2 =>
        let COM2 := vdiv (vsum m2) L
        let m2c := m2.map (fun p => vsub p COM2)
        let E0 := m1sum + sqsum m2c
        let r := svd (crossMat m2c m1c)
        let stp : Structure × Except String Unit :=
          if align then
            let t := s.set_current (i : ℤ)
            match t.2 with
            | .error e => (t.1, .error e)
            | .ok _ => (t.1.apply_transformation (matMul r.V r.Wt), .ok ())
          else (s, .ok ())
        match stp.2 with
        | .error e => (stp.1, .error e)
        | .ok _ =>
          let reflect := det3 r.V * det3 r.Wt
          let Scorr := if reflect = -1 then negLast r.S else r.S
          let rmsdval := |(E0 - 2 * sumV Scorr) / (L : ℚ)|
          rovLoop svd pidx align ref m1c m1sum L rest stp.1 (rmsdval :: acc)

/-- `Structure.rmsd_one_vs_all(ref_index, points_index, align)`: back up the
cursor, validate `ref_index` against the frame count, select and centre the
reference, loop over every frame (`rovLoop`), then restore the cursor with
`set_current(bkpcurrent)`.  Returned pair: (object state, outcome) — a raise
leaves the state as it was at that moment. -/
def Structure.rmsd_one_vs_all (s : Structure) (svd : SvdOracle) (ref_index : ℕ)
    (pidx : PointsArg) (align : Bool) : Structure × Except String (List ℚ) :=
  let bkpcurrent := s.current
  if (s.coordinates.length : ℤ) ≤ (ref_index : ℤ) then
    (s, .error "ERROR: index requested, but only fewer exist in database")
  else
    match pidxSelect pidx (s.frame ref_index) with
    | .error e => (s, .error e)
    | .ok m1 =>
      let L := m1.length
      let COM1 := vdiv (vsum m1) L
      let m1c := m1.map (fun p => vsub p COM1)
      let m1sum := sqsum m1c
      match rovLoop svd pidx align ref_index m1c m1sum L
          (List.range s.coordinates.length) s [] with
      | (s1, .error e) => (s1, .error e)
      | (s1, .ok lst) =>
        let t := s1.set_current bkpcurrent
        match t.2 with
        | .error e => (t.1, .error e)
        | .ok _ => (t.1, .ok lst)

/-- `Structure.rmsd(i, j, points_index)`: the pairwise Kabsch RMSD.  Both
frame indices are validated, both point sets selected and centred, and here —
unlike the one-vs-all loop — the reflection correction of `S` happens before
the returned value is formed.  Pure: it never touches the store.  As
everywhere, the returned value is the square of the source's (`np.sqrt`
omitted). -/
def Structure.rmsd (s : Structure) (svd : SvdOracle) (i j : ℕ)
    (pidx : PointsArg) : Except String ℚ :=
  if (s.coordinates.length : ℤ) ≤ (i : ℤ) then
    .error "ERROR: index requested, but only fewer exist in database"
  else if (s.coordinates.length : ℤ) ≤ (j : ℤ) then
    .error "ERROR: index requested, but only fewer exist in database"
  else
    match pidxSelect pidx (s.frame i) with
    | .error e => .error e
    | .ok m1 =>
      match pidxSelect pidx (s.frame j) with
      | .error e => .error e
      | .ok m2 =>
        let L := m1.length
        let COM1 := vdiv (vsum m1) L
        let m1c := m1.map (fun p => vsub p COM1)
        let m1sum := sqsum m1c
        let COM2 := vdiv (vsum m2) L
        let m2c := m2.map (fun p => vsub p COM2)
        let E0 := m1sum + sqsum m2c
        let r := svd (crossMat m2c m1c)
        let reflect := det3 r.V * det3 r.Wt
        let Scorr := if reflect = -1 then negLast r.S else r.S
        .ok (|(E0 - 2 * sumV Scorr) / (L : ℚ)|)

/-- Index pairs visited by the double loop of `rmsd_distance_matrix`:
`for i in xrange(0, F-1): for j in xrange(i+1, F)`. -/
def pairList (F : ℕ) : List (ℕ × ℕ) :=
  (List.range (F - 1)).flatMap
    (fun i => (List.range' (i + 1) (F - 1 - i)).map (fun j => (i, j)))

/-- The `np.zeros((F, F))` start matrix. -/
def zerosM (F : ℕ) : List (List ℚ) := List.replicate F (List.replicate F 0)

/-- Write entry `(i, j)` of a row-major matrix (out-of-range writes cannot
occur in the call sites: the loop bounds keep `i, j < F`). -/
def setM (m : List (List ℚ)) (i j : ℕ) (v : ℚ) : List (List ℚ) :=
  m.set i (((m.get? i).getD []).set j v)

/-- Read entry `(i, j)` of a row-major matrix, `0` outside. -/
def entry (m : List (List ℚ)) (i j : ℕ) : ℚ :=
  ((m.get? i).getD []).getD j 0

/-- Result of `rmsd_distance_matrix`: a flat sequence or a full matrix,
matching the source's two return types. -/
inductive RdmOut : Type
| flatR (l : List ℚ)
| matR (m : List (List ℚ))
deriving DecidableEq

/-- Loop of `rmsd_distance_matrix` over the index pairs: each pair's RMSD is
appended (flat mode) or written into both `(i, j)` and `(j, i)` (matrix
mode); an exception from `rmsd` propagates. -/
def rdmGo (svd : SvdOracle) (s : Structure) (pidx : PointsArg) :
    List (ℕ × ℕ) → RdmOut → Except String RdmOut
  | [], st => .ok st
  | (i, j) :: rest, st =>
    match s.rmsd svd i j pidx with
    | .error e => .error e
    | .ok r =>
      match st with
      | .flatR l => rdmGo svd s pidx rest (.flatR (l ++ [r]))
      | .matR m => rdmGo svd s pidx rest (.matR (setM (setM m i j r) j i r))

/-- `Structure.rmsd_distance_matrix(points_index, flat)`: all-pairs RMSD,
upper-triangle order, into a flat list or a zero-initialised `F×F` matrix. -/
def Structure.rmsd_distance_matrix (s : Structure) (svd : SvdOracle)
    (pidx : PointsArg) (flat : Bool) : Except String RdmOut :=
  rdmGo svd s pidx (pairList s.coordinates.length)
    (if flat then .flatR [] else .matR (zerosM s.coordinates.length))

/-! ### Ensemble PCA -/

/-- The `indices` argument of `pca`: the integer sentinel `-1` (its default)
or a list of point indices. -/
inductive NpIdxArg : Type
| sentinel
| ilist (l : List ℕ)

/-- The eigendecomposition collaborator (`np.linalg.eig`): eigenvalues and
the eigenvector matrix, for a square rational matrix given as rows. -/
abbrev EigOracle : Type := List (List ℚ) → List ℚ × List (List ℚ)

/-- Dot product of two equal-length rational lists. -/
def dotL (a b : List ℚ) : ℚ := ((List.zip a b).map (fun p => p.1 * p.2)).foldr (· + ·) 0

/-- Transpose of a rectangular row-major matrix. -/
def transposeM (m : List (List ℚ)) : List (List ℚ) :=
  (List.range (m.headD []).length).map
    (fun j => m.map (fun row => (row.get? j).getD 0))

/-- Column `i` of a row-major matrix (`eigenvec[:, i]`). -/
def colM (m : List (List ℚ)) (i : ℕ) : List ℚ :=
  m.map (fun row => (row.get? i).getD 0)

/-- `np.cov` of a row-major matrix whose rows are the variables: entry
`(a, b)` is `Σ_k (x_ak - μ_a)(x_bk - μ_b) / (n - 1)` over the `n` columns. -/
def covM (m : List (List ℚ)) : List (List ℚ) :=
  let n := (m.headD []).length
  m.map (fun ra =>
    let mua := ra.foldr (· + ·) 0 / (ra.length : ℚ)
    m.map (fun rb =>
      let mub := rb.foldr (· + ·) 0 / (rb.length : ℚ)
      dotL (ra.map (fun v => v - mua)) (rb.map (fun v => v - mub))
        / ((n : ℚ) - 1)))

/-- The eigenvector-count loop of `pca`'s projection branch: walk the
eigenvalues accumulating their sum, and return `i + 1` at the first position
where `cumulative / total > thresh`; `0` if the loop runs out (then the
projection is empty). -/
def pcaCntGo (total thresh : ℚ) : List ℚ → ℚ → ℕ → ℕ
  | [], _, _ => 0
  | e :: rest, cum, i =>
    let c := cum + e
    if c / total > thresh then i + 1 else pcaCntGo total thresh rest c (i + 1)

/-- `np.dot(vec, coords)` for a `(3k)`-vector against a `(3k)×F` matrix:
one projection value per column (frame). -/
def rowDotM (v : List ℚ) (m : List (List ℚ)) : List ℚ :=
  (transposeM m).map (fun col => dotL v col)

/-- `Structure.pca(indices, project_thresh)`.  Statement order of the
source: (1) when `project_thresh` differs from its `-1` default and lies
outside `(0, 1]`, raise; (2) build the displacement matrix — with the
sentinel still in `indices`, `len(indices)` inside the `reshape` raises a
`TypeError` (`len(-1)` is undefined; on a store with an empty point axis the
preceding `self.coordinates[:, -1]` already raises `IndexError` — either
way `pca` never proceeds); (3) subtract each row's mean, take `np.cov`, hand
the result to the `eig` collaborator; (4) with a non-sentinel
`project_thresh`, count the leading eigenvectors that reach the cumulative
fraction and project every frame's flattened coordinates on each.  Pure: the
store is never written. -/
def Structure.pca (s : Structure) (eig : EigOracle) (indices : NpIdxArg)
    (project_thresh : ℚ) :
    Except String (List ℚ × List (List ℚ) × Option (List (List ℚ))) :=
  if project_thresh ≠ -1 ∧ (1 < project_thresh ∨ project_thresh ≤ 0) then
    .error "ERROR: project_thresh should be a number between 0 and 1"
  else
    match indices with
    | .sentinel => .error "TypeError: object of type int has no len"
    | .ilist l =>
      if s.coordinates.all (fun f => l.all (fun i => i < f.length)) then
        let rows := s.coordinates.map (fun f =>
          (l.map (fun i => (f.get? i).getD (0, 0, 0))).flatMap
            (fun p => [p.1, p.2.1, p.2.2]))
        let coords := transposeM rows
        let disp := coords.map (fun row =>
          let mu := row.foldr (· + ·) 0 / (row.length : ℚ)
          row.map (fun v => v - mu))
        let covariance := covM disp
        let ev := eig covariance
        if project_thresh ≠ -1 then
          let total := ev.1.foldr (· + ·) 0
          let cnt := pcaCntGo total project_thresh ev.1 0 0
          let proj := (List.range cnt).map (fun i => rowDotM (colM ev.2 i) coords)
          .ok (ev.1, ev.2, some proj)
        else
          .ok (ev.1, ev.2, none)
      else .error "IndexError: index out of bounds for axis 1"

/-! ### The `clear` operation, at tensor level

`Structure.clear` assigns the literal `np.array([[[], []], [[], []]])` — an
array of shape `(2, 2, 0)`, whose innermost axis is empty and therefore has
no `List V3` image.  This one operation is embedded at the level of nested
lists of scalars, which represents every numpy shape exactly. -/

/-- The literal `np.array([[[], []], [[], []]])` of `Structure.clear`:
2 frames × 2 points × 0 coordinates. -/
def clear_coordinates : List (List (List ℚ)) := [[[], []], [[], []]]

/-- A store carrying its coordinate tensor shape-exactly (only the two
fields `clear` writes). -/
structure StructureT : Type where
  coordinates : List (List (List ℚ))
  points : List (List ℚ)
deriving DecidableEq

/-- `Structure.clear()`: `self.coordinates = np.array([[[], []], [[], []]])`
and `self.points = self.coordinates[0]`. -/
def StructureT.clear (_ : StructureT) : StructureT :=
  { coordinates := clear_coordinates, points := [[], []] }

/-- numpy `.size` of a rank-3 tensor: the number of scalar entries. -/
def sizeT (t : List (List (List ℚ))) : ℕ :=
  (t.map (fun f => (f.map List.length).foldr (· + ·) 0)).foldr (· + ·) 0

/-! ### Helper lemmas on numpy-style indexing -/

lemma npGet_valid {α : Type} (l : List α) (i : ℤ) (h0 : 0 ≤ i)
    (h1 : i < (l.length : ℤ)) : npGet l i = l.get? i.toNat := by
  simp only [npGet]
  rw [if_neg (by omega : ¬ i < 0), if_pos ⟨h0, h1⟩]

lemma npGet_coe {α : Type} (l : List α) (i : ℕ) (h : i < l.length) :
    npGet l (i : ℤ) = l.get? i := by
  rw [npGet_valid l (i : ℤ) (by omega) (by omega)]
  simp

lemma npSet_valid {α : Type} (l : List α) (i : ℤ) (a : α) (h0 : 0 ≤ i)
    (h1 : i < (l.length : ℤ)) : npSet l i a = l.set i.toNat a := by
  simp only [npSet]
  rw [if_neg (by omega : ¬ i < 0), if_pos ⟨h0, h1⟩]

lemma npSet_length {α : Type} (l : List α) (i : ℤ) (a : α) :
    (npSet l i a).length = l.length := by
  simp only [npSet]
  split <;> split <;> simp

lemma npGet_npSet_self {α : Type} (l : List α) (i : ℤ) (a : α) (h0 : 0 ≤ i)
    (h1 : i < (l.length : ℤ)) : npGet (npSet l i a) i = some a := by
  rw [npSet_valid l i a h0 h1,
    npGet_valid _ i (by omega) (by rw [List.length_set]; omega)]
  exact List.get?_set_eq_of_lt a (by omega)

lemma set_getD_self {α : Type} (l : List α) (n : ℕ) (d : α) (h : n < l.length) :
    l.set n ((l.get? n).getD d) = l := by
  induction l generalizing n with
  | nil => simp at h
  | cons x xs ih =>
    cases n with
    | zero => simp
    | succ m =>
      simp only [List.set, List.get?]
      rw [ih m (by simpa using h)]

lemma npSet_getD_self {α : Type} (l : List α) (i : ℤ) (d : α) (h0 : 0 ≤ i)
    (h1 : i < (l.length : ℤ)) : npSet l i ((npGet l i).getD d) = l := by
  rw [npGet_valid l i h0 h1, npSet_valid l i _ h0 h1]
  exact set_getD_self l i.toNat d (by omega)

lemma npSet_npSet_valid {α : Type} (l : List α) (i : ℤ) (a b : α)
    (h0 : 0 ≤ i) (h1 : i < (l.length : ℤ)) :
    npSet (npSet l i a) i b = npSet l i b := by
  rw [npSet_valid l i a h0 h1, npSet_valid l i b h0 h1,
    npSet_valid _ i b h0 (by rw [List.length_set]; exact h1)]
  exact l.set_set a b i.toNat

lemma get?_eq_some_frame (s : Structure) (i : ℕ) (h : i < s.coordinates.length) :
    s.coordinates.get? i = some (s.frame i) := by
  unfold Structure.frame
  cases hx : s.coordinates.get? i with
  | none => exact absurd (List.get?_eq_none.mp hx) (by omega)
  | some f => simp [hx]

/-- Reduction of `set_current` at a valid nonnegative position. -/
lemma set_current_spec (s : Structure) (pos : ℤ) (h0 : 0 ≤ pos)
    (h1 : pos < (s.coordinates.length : ℤ)) :
    s.set_current pos =
      ({ s with current := pos, center := get_center_of (s.frame pos.toNat) },
        .ok ()) := by
  unfold Structure.set_current
  rw [if_pos h1, npGet_valid _ pos h0 h1,
    get?_eq_some_frame s pos.toNat (by omega)]

/-! ### Concrete instances used by witnesses and counterexamples -/

/-- A store with one frame of one point. -/
def oneFrameStore : Structure := ⟨[[(1, 2, 3)]], 0, (1, 2, 3)⟩

/-- A store with two one-point frames. -/
def twoFrameStore : Structure := ⟨[[(0, 0, 0)], [(1, 1, 1)]], 0, (0, 0, 0)⟩

/-- A freshly constructed empty store: one frame, zero points
(`self.coordinates.size == 0`, the constructor's default state collapsed to
the point-list representation). -/
def emptyStore : Structure := ⟨[[]], 0, (0, 0, 0)⟩

/-- A store with five one-point frames. -/
def fiveFrameStore : Structure :=
  ⟨[[(0, 0, 0)], [(1, 0, 0)], [(2, 0, 0)], [(3, 0, 0)], [(4, 0, 0)]], 0, (0, 0, 0)⟩

/-- An eigendecomposition oracle returning a fixed triple of eigenpairs (any
value serves: the claims quantify over the collaborator or ignore it). -/
def eig0 : EigOracle := fun _ => ([0, 0, 0], [[0, 0, 0], [0, 0, 0], [0, 0, 0]])

/-! ### Claim C5 — `clear` -/

/-- Claim C5 counterexample: after `clear` the coordinates tensor has 2
frames and a point axis of length 2 — not the 0 frames and 0 points the
claim states. -/
theorem clear_cex :
    (StructureT.clear ⟨[[[1, 2, 3]]], [[1, 2, 3]]⟩).coordinates.length = 2 ∧
    ((StructureT.clear ⟨[[[1, 2, 3]]], [[1, 2, 3]]⟩).coordinates.headD []).length = 2 ∧
    (2 : ℕ) ≠ 0 := by
  refine ⟨rfl, rfl, by decide⟩

/-- Claim C5 (amended): `clear()` empties the store of every scalar
coordinate — the tensor's `size` is 0, which is exactly the emptiness test
`add_xyz` later applies — but the assigned literal has shape `(2, 2, 0)`:
the frame axis and the point axis both have length 2, and only the
coordinate axis is empty. -/
theorem clear_empties_size_not_axes (s : StructureT) :
    sizeT (s.clear).coordinates = 0 ∧
    (s.clear).coordinates.length = 2 ∧
    (∀ f ∈ (s.clear).coordinates, f.length = 2) ∧
    (∀ f ∈ (s.clear).coordinates, ∀ p ∈ f, p.length = 0) := by
  refine ⟨rfl, rfl, ?_, ?_⟩ <;>
    simp [StructureT.clear, clear_coordinates]

/-- Witness for `clear_empties_size_not_axes` at a concrete store. -/
theorem clear_empties_size_not_axes_witness :
    sizeT (StructureT.clear ⟨[[[4, 5, 6]]], [[4, 5, 6]]⟩).coordinates = 0 :=
  (clear_empties_size_not_axes ⟨[[[4, 5, 6]]], [[4, 5, 6]]⟩).1

/-! ### Claim C10 — `pca` with the sentinel index argument -/

/-- Claim C10: with `indices` left at its integer sentinel `-1`, `pca`
always fails, for every store, eigendecomposition collaborator and
`project_thresh`: either the threshold guard raises first, or the
displacement-matrix construction applies `len` to the integer sentinel
inside the `reshape` (a `TypeError`; on a store with an empty point axis the
`coordinates[:, -1]` read raises instead — `pca` never returns a result). -/
theorem pca_sentinel_always_fails (s : Structure) (eig : EigOracle) (t : ℚ) :
    ∃ e, s.pca eig .sentinel t = .error e := by
  unfold Structure.pca
  split
  · exact ⟨_, rfl⟩
  · exact ⟨_, rfl⟩

/-! ### Claim C9 — `pca` threshold validation -/

/-- A two-frame, one-point store for the PCA claims. -/
def pcaStore : Structure := ⟨[[(1, 0, 0)], [(0, 1, 0)]], 0, (0, 0, 0)⟩

/-- Claim C9 counterexample: `project_thresh = -1` lies outside `(0, 1]`
(it is `≤ 0`), yet `pca` does not raise — the sentinel comparison
`project_thresh != -1` skips the range check and the call returns normally. -/
theorem pca_thresh_cex :
    ((-1 : ℚ) ≤ 0) ∧
    pcaStore.pca eig0 (.ilist [0]) (-1) =
      .ok ([0, 0, 0], [[0, 0, 0], [0, 0, 0], [0, 0, 0]], none) := by
  constructor
  · norm_num
  · norm_num [Structure.pca, pcaStore, eig0]

/-- Claim C9 (amended): `pca` raises on every `project_thresh` outside
`(0, 1]` *other than* the sentinel `-1`; passing exactly `-1` (the default)
bypasses the check and the analysis proceeds without projection.  (`pca`
never writes the store: the embedded function is pure.) -/
theorem pca_rejects_out_of_range_thresh (s : Structure) (eig : EigOracle)
    (indices : NpIdxArg) (t : ℚ) (hne : t ≠ -1) (hout : 1 < t ∨ t ≤ 0) :
    s.pca eig indices t =
      .error "ERROR: project_thresh should be a number between 0 and 1" := by
  unfold Structure.pca
  rw [if_pos ⟨hne, hout⟩]

/-- Witness for `pca_rejects_out_of_range_thresh` at `project_thresh = 2`. -/
theorem pca_rejects_out_of_range_thresh_witness :
    pcaStore.pca eig0 (.ilist [0]) 2 =
      .error "ERROR: project_thresh should be a number between 0 and 1" :=
  pca_rejects_out_of_range_thresh pcaStore eig0 (.ilist [0]) 2 (by norm_num)
    (Or.inl (by norm_num))

/-! ### Claim C6 — `set_current` bounds -/

/-- Claim C6 counterexample: on a two-frame store, `set_current(-1)` — an
index outside `[0, F)` — does not raise: the guard only tests
`pos < len(coordinates)`, so the call succeeds, stores the negative cursor,
and the active frame silently wraps to the last frame. -/
theorem set_current_cex :
    (twoFrameStore.set_current (-1)).2 = .ok () ∧
    (twoFrameStore.set_current (-1)).1.current = -1 ∧
    (twoFrameStore.set_current (-1)).1.points = [(1, 1, 1)] ∧
    ¬ (0 ≤ (-1 : ℤ)) := by
  refine ⟨?_, ?_, ?_, by decide⟩ <;>
    norm_num [twoFrameStore, Structure.set_current, npGet, Structure.points,
      get_center_of, vdiv, vsum, vadd]

/-- Claim C6 (amended): `set_current(pos)` raises only for `pos ≥ F` (the
explicit guard) and for `pos < -F` (the numpy access, after the cursor has
already been moved); for `0 ≤ pos < F` it succeeds, sets the cursor to `pos`
and recomputes `center` for the selected frame; and for `-F ≤ pos < 0` it
silently accepts the out-of-`[0, F)` index, wrapping the selection to frame
`F + pos` instead of raising. -/
theorem set_current_cases (s : Structure) (pos : ℤ) :
    ((s.coordinates.length : ℤ) ≤ pos →
      s.set_current pos =
        (s, .error "ERROR: position requested, but only fewer conformations available")) ∧
    (0 ≤ pos → pos < (s.coordinates.length : ℤ) →
      s.set_current pos =
        ({ s with current := pos, center := get_center_of (s.frame pos.toNat) },
          .ok ())) ∧
    (pos < 0 → -(s.coordinates.length : ℤ) ≤ pos →
      (s.set_current pos).2 = .ok () ∧
      (s.set_current pos).1.current = pos ∧
      (s.set_current pos).1.coordinates = s.coordinates ∧
      (s.set_current pos).1.points =
        s.frame ((s.coordinates.length : ℤ) + pos).toNat) ∧
    (pos < -(s.coordinates.length : ℤ) →
      s.set_current pos =
        ({ s with current := pos },
          .error "IndexError: index out of bounds for axis 0")) := by
  refine ⟨?_, ?_, ?_, ?_⟩
  · intro h
    unfold Structure.set_current
    rw [if_neg (by omega)]
  · intro h0 h1
    exact set_current_spec s pos h0 h1
  · intro hneg hge
    have hwrap0 : (0 : ℤ) ≤ (s.coordinates.length : ℤ) + pos := by omega
    have hwrap1 : (s.coordinates.length : ℤ) + pos < (s.coordinates.length : ℤ) := by
      omega
    have hg : npGet s.coordinates pos =
        s.coordinates.get? ((s.coordinates.length : ℤ) + pos).toNat := by
      simp only [npGet]
      rw [if_pos hneg, if_pos ⟨hwrap0, hwrap1⟩]
    have hsome : s.coordinates.get? ((s.coordinates.length : ℤ) + pos).toNat =
        some (s.frame ((s.coordinates.length : ℤ) + pos).toNat) :=
      get?_eq_some_frame s _ (by omega)
    unfold Structure.set_current
    rw [if_pos (by omega), hg, hsome]
    refine ⟨rfl, rfl, rfl, ?_⟩
    simp only [Structure.points, hg, hsome, Option.getD_some]
  · intro h
    unfold Structure.set_current
    have hg : npGet s.coordinates pos = none := by
      simp only [npGet]
      rw [if_pos (by omega : pos < 0), if_neg (by omega)]
    rw [if_pos (by omega), hg]

/-- Witness for `set_current_cases`: on the two-frame store, position 1 is
valid and selects frame 1. -/
theorem set_current_cases_witness :
    twoFrameStore.set_current 1 =
      ({ twoFrameStore with
          current := 1,
          center := get_center_of (twoFrameStore.frame 1) }, .ok ()) :=
  ((set_current_cases twoFrameStore 1).2.1 (by decide) (by decide))

/-! ### Claim C2 — `delete_xyz` -/

/-- Claim C2 counterexample: deleting index 0 from a store with exactly one
frame does not complete successfully — after the deletion the store holds 0
frames, and the re-selection `set_current(0)` fails its `0 < F` guard and
raises. -/
theorem delete_xyz_cex :
    (oneFrameStore.delete_xyz 0).2 =
      .error "ERROR: position requested, but only fewer conformations available" := by
  simp [oneFrameStore, Structure.delete_xyz, Structure.set_current]

/-- Claim C2 (amended): for every store with `F ≥ 2` frames and every valid
index `d < F`, `delete_xyz(d)` removes frame `d` and re-selects the previous
frame — `currentIndex` becomes `d - 1` when `d > 0` and `0` when `d = 0`.
Deleting index 0 from a one-frame store instead raises, because re-selecting
frame 0 of the now-empty store fails. -/
theorem delete_xyz_selects_previous (s : Structure) (d : ℕ)
    (hd : d < s.coordinates.length) (h2 : 2 ≤ s.coordinates.length) :
    (s.delete_xyz d).2 = .ok () ∧
    (s.delete_xyz d).1.current = (if 0 < d then (d : ℤ) - 1 else 0) ∧
    (s.delete_xyz d).1.coordinates = s.coordinates.eraseIdx d := by
  have hlen : (s.coordinates.eraseIdx d).length = s.coordinates.length - 1 := by
    rw [List.length_eraseIdx]
    simp [hd]
  simp only [Structure.delete_xyz]
  by_cases hpos : 0 < d
  · rw [if_pos hpos, set_current_spec _ _ (by omega) (by push_cast [hlen]; omega)]
    refine ⟨rfl, ?_, rfl⟩
    simp [hpos]
  · rw [if_neg hpos, set_current_spec _ _ (by omega) (by push_cast [hlen]; omega)]
    refine ⟨rfl, ?_, rfl⟩
    simp [hpos]

/-- Witness for `delete_xyz_selects_previous`: deleting frame 2 of a
five-frame store succeeds and selects frame 1 (the spec's own example). -/
theorem delete_xyz_selects_previous_witness :
    (fiveFrameStore.delete_xyz 2).2 = .ok () ∧
    (fiveFrameStore.delete_xyz 2).1.current = (if 0 < 2 then (2 : ℤ) - 1 else 0) ∧
    (fiveFrameStore.delete_xyz 2).1.coordinates =
      fiveFrameStore.coordinates.eraseIdx 2 :=
  delete_xyz_selects_previous fiveFrameStore 2 (by decide) (by decide)

/-! ### Claim C1 — `add_xyz` -/

/-- Claim C1: the empty-store half of the claim holds — appending one frame
to an empty store selects frame 0 and recomputes `center` to that frame's
centroid — but on a store already holding `F = 2` frames with frame 0
selected, `add_xyz` runs `set_current(self.current + 1)` and ends with
`currentIndex = 1`, not the index 2 of the first newly appended frame; the
source's own comment ("set new frame to the first of the newly inserted
ones") promises the claimed behaviour. -/
theorem add_xyz_divergence :
    ((emptyStore.add_xyz (.frame2 [(3, 0, 0), (5, 0, 0)])).2 = .ok () ∧
     (emptyStore.add_xyz (.frame2 [(3, 0, 0), (5, 0, 0)])).1.current = 0 ∧
     (emptyStore.add_xyz (.frame2 [(3, 0, 0), (5, 0, 0)])).1.center = (4, 0, 0)) ∧
    ((twoFrameStore.add_xyz (.frame2 [(2, 2, 2)])).2 = .ok () ∧
     twoFrameStore.coordinates.length = 2 ∧
     twoFrameStore.current = 0 ∧
     (twoFrameStore.add_xyz (.frame2 [(2, 2, 2)])).1.current = 1 ∧
     ((1 : ℤ) ≠ 2)) := by
  refine ⟨⟨?_, ?_, ?_⟩, ⟨?_, rfl, rfl, ?_, by decide⟩⟩ <;>
    norm_num [emptyStore, twoFrameStore, Structure.add_xyz, Structure.sizeZero,
      Structure.set_current, npGet, get_center_of, vdiv, vsum, vadd,
      Structure.frame]

/-! ### Claim C8 — `translate` roundtrip -/

lemma vadd_cancel (p : V3) (x y z : ℚ) :
    vadd (vadd p (x, y, z)) (-x, -y, -z) = p := by
  obtain ⟨a, b, c⟩ := p
  simp only [vadd]
  norm_num

/-- Claim C8: over the exact rational arithmetic of the embedding,
`translate(x, y, z)` followed by `translate(-x, -y, -z)` restores the store
exactly: every coordinate of the active frame, the cached `center`, and of
course the untouched frames and cursor. -/
theorem translate_roundtrip (s : Structure) (x y z : ℚ)
    (h0 : 0 ≤ s.current) (h1 : s.current < (s.coordinates.length : ℤ))
    (hne : s.points ≠ []) :
    (s.translate x y z).translate (-x) (-y) (-z) = s := by
  obtain ⟨c, cur, cen⟩ := s
  have h1' : cur < (c.length : ℤ) := h1
  have h0' : (0 : ℤ) ≤ cur := h0
  simp only [Structure.translate, Structure.points]
  rw [npGet_npSet_self _ _ _ h0' h1', Option.getD_some, List.map_map]
  have hmap : ((fun p => vadd p (-x, -y, -z)) ∘ fun p => vadd p (x, y, z)) = id := by
    funext p
    exact vadd_cancel p x y z
  rw [hmap, List.map_id, npSet_npSet_valid _ _ _ _ h0' h1',
    npSet_getD_self _ _ _ h0' h1']
  have hcen : vadd (vadd cen (x, y, z)) (-x, -y, -z) = cen :=
    vadd_cancel cen x y z
  rw [hcen]

/-- Witness for `translate_roundtrip` on the two-frame store. -/
theorem translate_roundtrip_witness :
    (twoFrameStore.translate 3 5 7).translate (-3) (-5) (-7) = twoFrameStore :=
  translate_roundtrip twoFrameStore 3 5 7 (by decide) (by decide)
    (by simp [twoFrameStore, Structure.points, npGet])

/-! ### Loop invariants of `rmsd_one_vs_all` -/

/-- Validity of a `points_index` argument against a point count `N`: the
selection in the loop body succeeds on every frame of that length. -/
def pidxOK : PointsArg → ℕ → Prop
  | .plist l, n => ∀ x ∈ l, x < n
  | .invalid, _ => False

lemma frame_mem (s : Structure) (i : ℕ) (h : i < s.coordinates.length) :
    s.frame i ∈ s.coordinates := by
  unfold Structure.frame
  cases hx : s.coordinates.get? i with
  | none => exact absurd (List.get?_eq_none.mp hx) (by omega)
  | some f => simpa using List.get?_mem hx

lemma pidxSelect_isOk (pidx : PointsArg) (N : ℕ) (f : Frame)
    (hf : f.length = N) (h : pidxOK pidx N) :
    ∃ m, pidxSelect pidx f = .ok m := by
  cases pidx with
  | invalid => exact absurd h (by simp [pidxOK])
  | plist l =>
    cases l with
    | nil => exact ⟨f, rfl⟩
    | cons a as =>
      refine ⟨(a :: as).map (fun i => (f.get? i).getD (0, 0, 0)), ?_⟩
      simp only [pidxSelect]
      rw [if_pos]
      simp only [List.all_eq_true, decide_eq_true_eq]
      intro x hx
      rw [hf]
      exact h x hx

lemma pidxOK_of_select_ok (pidx : PointsArg) (N : ℕ) (f m : Frame)
    (hf : f.length = N) (h : pidxSelect pidx f = .ok m) : pidxOK pidx N := by
  cases pidx with
  | invalid => simp [pidxSelect] at h
  | plist l =>
    cases l with
    | nil => simp [pidxOK]
    | cons a as =>
      simp only [pidxOK]
      by_cases hc : (a :: as).all (fun i => decide (i < f.length))
      · intro x hx
        have := (List.all_eq_true.mp hc) x hx
        simp only [decide_eq_true_eq] at this
        omega
      · rw [pidxSelect.eq_def] at h
        simp only at h
        rw [if_neg ?_] at h
        · exact absurd h (by simp)
        · simpa using hc

lemma select_default (f : Frame) : pidxSelect (.plist []) f = .ok f := rfl

/-- Effect of the aligned branch of the loop body: `set_current(i)` succeeds
for a loop index `i < F`, and the subsequent `apply_transformation(M)`
rewrites frame `i` to its image under `p ↦ p·M`, leaving every other frame
in place. -/
lemma align_step (s : Structure) (i : ℕ) (M : M3)
    (h : i < s.coordinates.length) :
    (s.set_current (i : ℤ)).2 = .ok () ∧
    (s.set_current (i : ℤ)).1.apply_transformation M =
      { s with
        coordinates := s.coordinates.set i
          ((s.frame i).map (fun p => vecMulMat p M)),
        current := (i : ℤ),
        center := get_center_of (s.frame i) } := by
  have hc : ((i : ℤ)).toNat = i := by omega
  rw [set_current_spec s (i : ℤ) (by omega) (by exact_mod_cast h)]
  refine ⟨rfl, ?_⟩
  simp only [Structure.apply_transformation, Structure.points, hc]
  rw [npGet_valid _ _ (by omega) (by exact_mod_cast h), hc,
    get?_eq_some_frame s i h, Option.getD_some,
    npSet_valid _ _ _ (by omega) (by exact_mod_cast h), hc]

/-- The value the loop body of `rmsd_one_vs_all` accumulates for a
non-reference frame whose selected points are `m2` (the square of the
source's `np.sqrt` output, reflection correction of `S` included). -/
def rovVal (svd : SvdOracle) (m1c : List V3) (m1sum : ℚ) (L : ℕ)
    (m2 : List V3) : ℚ :=
  let COM2 := vdiv (vsum m2) L
  let m2c := m2.map (fun p => vsub p COM2)
  let E0 := m1sum + sqsum m2c
  let r := svd (crossMat m2c m1c)
  let Scorr := if det3 r.V * det3 r.Wt = -1 then negLast r.S else r.S
  |(E0 - 2 * sumV Scorr) / (L : ℚ)|

lemma rovLoop_step_ref (svd : SvdOracle) (pidx : PointsArg) (align : Bool)
    (ref : ℕ) (m1c : List V3) (m1sum : ℚ) (L : ℕ) (rest : List ℕ)
    (s : Structure) (acc : List ℚ) :
    rovLoop svd pidx align ref m1c m1sum L (ref :: rest) s acc =
      rovLoop svd pidx align ref m1c m1sum L rest s (0 :: acc) := by
  simp only [rovLoop, eq_self_iff_true, if_true]

lemma rovLoop_step_noalign (svd : SvdOracle) (pidx : PointsArg) (ref : ℕ)
    (m1c : List V3) (m1sum : ℚ) (L : ℕ) (i : ℕ) (rest : List ℕ)
    (s : Structure) (acc : List ℚ) (m2 : List V3) (hir : i ≠ ref)
    (hm2 : pidxSelect pidx (s.frame i) = .ok m2) :
    rovLoop svd pidx false ref m1c m1sum L (i :: rest) s acc =
      rovLoop svd pidx false ref m1c m1sum L rest s
        (rovVal svd m1c m1sum L m2 :: acc) := by
  simp only [rovLoop, rovVal, hm2, if_neg hir, Bool.false_eq_true, if_false]

lemma rovLoop_step_align (svd : SvdOracle) (pidx : PointsArg) (ref : ℕ)
    (m1c : List V3) (m1sum : ℚ) (L : ℕ) (i : ℕ) (rest : List ℕ)
    (s : Structure) (acc : List ℚ) (m2 : List V3) (hir : i ≠ ref)
    (hm2 : pidxSelect pidx (s.frame i) = .ok m2)
    (hiF : i < s.coordinates.length) :
    rovLoop svd pidx true ref m1c m1sum L (i :: rest) s acc =
      rovLoop svd pidx true ref m1c m1sum L rest
        { s with
          coordinates := s.coordinates.set i
            ((s.frame i).map (fun p =>
              vecMulMat p (rovRotation svd m1c L m2))),
          current := (i : ℤ),
          center := get_center_of (s.frame i) }
        (rovVal svd m1c m1sum L m2 :: acc) := by
  obtain ⟨hok, happ⟩ := align_step s i
    (matMul (svd (crossMat (m2.map (fun p => vsub p (vdiv (vsum m2) L))) m1c)).V
      (svd (crossMat (m2.map (fun p => vsub p (vdiv (vsum m2) L))) m1c)).Wt) hiF
  simp only [rovLoop, rovVal, rovRotation, hm2, if_neg hir, if_true, hok, happ]

/-- Master invariant of the `rmsd_one_vs_all` loop, for a duplicate-free list
of in-range frame indices on a rectangular store with a selectable
`points_index`: the loop never raises; frame count and point counts are
preserved; without alignment the store is untouched; frames outside the index
list (and the reference frame) are never written; and with alignment and the
default point selection every visited non-reference frame `j` ends as its own
original points rotated by `rovRotation` — the `V·Wt` of the oracle's raw
output, applied before any reflection correction. -/
lemma rovLoop_spec (svd : SvdOracle) (pidx : PointsArg) (align : Bool)
    (ref : ℕ) (m1c : List V3) (m1sum : ℚ) (L N : ℕ) :
    ∀ (idxs : List ℕ) (s : Structure) (acc : List ℚ),
      (∀ i ∈ idxs, i < s.coordinates.length) → idxs.Nodup →
      (∀ f ∈ s.coordinates, f.length = N) → pidxOK pidx N →
      ∃ s' lst,
        rovLoop svd pidx align ref m1c m1sum L idxs s acc = (s', .ok lst) ∧
        s'.coordinates.length = s.coordinates.length ∧
        (∀ f ∈ s'.coordinates, f.length = N) ∧
        (align = false → s' = s) ∧
        (∀ j : ℕ, j ∉ idxs ∨ j = ref →
          s'.coordinates.get? j = s.coordinates.get? j) ∧
        (align = true → pidx = .plist [] → ∀ j ∈ idxs, j ≠ ref →
          s'.coordinates.get? j =
            some ((s.frame j).map
              (fun p => vecMulMat p (rovRotation svd m1c L (s.frame j))))) := by
  intro idxs
  induction idxs with
  | nil =>
    intro s acc _ _ hN _
    exact ⟨s, acc.reverse, by simp [rovLoop], rfl, hN, fun _ => rfl,
      fun j _ => rfl, fun _ _ j hj => absurd hj (List.not_mem_nil j)⟩
  | cons i rest ih =>
    intro s acc hidx hnd hN hsel
    have hiF : i < s.coordinates.length := hidx i (List.mem_cons_self i rest)
    have hrest : ∀ j ∈ rest, j < s.coordinates.length :=
      fun j hj => hidx j (List.mem_cons_of_mem _ hj)
    have hnotin : i ∉ rest := (List.nodup_cons.mp hnd).1
    have hnd' : rest.Nodup := (List.nodup_cons.mp hnd).2
    by_cases hir : i = ref
    · subst hir
      obtain ⟨s', lst, heq, hlen, hN', hid, hpres, htr⟩ :=
        ih s (0 :: acc) hrest hnd' hN hsel
      refine ⟨s', lst, ?_, hlen, hN', hid, ?_, ?_⟩
      · rw [rovLoop_step_ref]
        exact heq
      · intro j hj
        refine hpres j ?_
        rcases hj with hj | hj
        · exact Or.inl (fun hm => hj (List.mem_cons_of_mem _ hm))
        · exact Or.inr hj
      · intro ha hp j hj hjr
        rcases List.mem_cons.mp hj with hji | hj'
        · exact absurd hji hjr
        · exact htr ha hp j hj' hjr
    · have hfr : (s.frame i).length = N := hN _ (frame_mem s i hiF)
      obtain ⟨m2, hm2⟩ := pidxSelect_isOk pidx N (s.frame i) hfr hsel
      cases align with
      | false =>
        obtain ⟨s', lst, heq, hlen, hN', hid, hpres, htr⟩ :=
          ih s (rovVal svd m1c m1sum L m2 :: acc) hrest hnd' hN hsel
        refine ⟨s', lst, ?_, hlen, hN', fun _ => hid rfl, ?_, ?_⟩
        · rw [rovLoop_step_noalign svd pidx ref m1c m1sum L i rest s acc m2 hir hm2]
          exact heq
        · intro j hj
          refine hpres j ?_
          rcases hj with hj | hj
          · exact Or.inl (fun hm => hj (List.mem_cons_of_mem _ hm))
          · exact Or.inr hj
        · intro ha
          exact absurd ha (by simp)
      | true =>
        -- the aligned step rewrites frame i and recurses from the new state
        set s2 : Structure :=
          { s with
            coordinates := s.coordinates.set i
              ((s.frame i).map (fun p =>
                vecMulMat p (rovRotation svd m1c L m2))),
            current := (i : ℤ),
            center := get_center_of (s.frame i) } with hs2
        have hlen2 : s2.coordinates.length = s.coordinates.length := by
          simp [hs2, List.length_set]
        have hN2 : ∀ f ∈ s2.coordinates, f.length = N := by
          intro f hf
          simp only [hs2] at hf
          rcases List.mem_or_eq_of_mem_set hf with hf' | hf'
          · exact hN f hf'
          · rw [hf', List.length_map]
            exact hfr
        have hrest2 : ∀ j ∈ rest, j < s2.coordinates.length := by
          intro j hj
          rw [hlen2]
          exact hrest j hj
        obtain ⟨s', lst, heq, hlen', hN', _, hpres, htr⟩ :=
          ih s2 (rovVal svd m1c m1sum L m2 :: acc) hrest2 hnd' hN2 hsel
        have hget2_ne : ∀ j : ℕ, j ≠ i →
            s2.coordinates.get? j = s.coordinates.get? j := by
          intro j hj
          simp only [hs2]
          exact List.get?_set_ne _ _ (Ne.symm hj)
        refine ⟨s', lst, ?_, by rw [hlen', hlen2], hN', by simp, ?_, ?_⟩
        · rw [rovLoop_step_align svd pidx ref m1c m1sum L i rest s acc m2 hir hm2 hiF]
          exact heq
        · intro j hj
          have hji : j ≠ i := by
            rcases hj with hj | hj
            · exact fun h => hj (h ▸ List.mem_cons_self i rest)
            · exact fun h => hir (h ▸ hj)
          have h1 : s'.coordinates.get? j = s2.coordinates.get? j := by
            refine hpres j ?_
            rcases hj with hj | hj
            · exact Or.inl (fun hm => hj (List.mem_cons_of_mem _ hm))
            · exact Or.inr hj
          rw [h1, hget2_ne j hji]
        · intro _ hp j hj hjr
          rcases List.mem_cons.mp hj with hji | hj'
          · -- j = i: untouched by the recursion, written by this step
            subst hji
            have h1 : s'.coordinates.get? j = s2.coordinates.get? j :=
              hpres j (Or.inl hnotin)
            have h2 : s2.coordinates.get? j =
                some ((s.frame j).map (fun p =>
                  vecMulMat p (rovRotation svd m1c L m2))) := by
              simp only [hs2]
              exact List.get?_set_eq_of_lt _ hiF
            have hm2' : m2 = s.frame j := by
              rw [hp] at hm2
              simpa [select_default] using hm2.symm
            rw [h1, h2, hm2']
          · -- j comes later: the recursion rewrote it, from unchanged points
            have h1 := htr rfl hp j hj' hjr
            have hji : j ≠ i := fun h => hnotin (h ▸ hj')
            have h2 : s2.frame j = s.frame j := by
              unfold Structure.frame
              rw [hget2_ne j hji]
            rw [h1, h2]

/-! ### Claim C4 — `rmsd_one_vs_all` restores the cursor -/

/-- A trivial SVD collaborator (identity factors), for witnesses that hold
for every oracle. -/
def svd0 : SvdOracle := fun _ => ⟨idM3, (0, 0, 0), idM3⟩

/-- Claim C4: for every well-formed store (valid cursor, rectangular
ensemble), every SVD collaborator, every `ref_index`, `points_index`
argument and `align` flag, `rmsd_one_vs_all` leaves `currentIndex` exactly
as it found it — after a normal return (including `align=true`, which
rewrites non-reference frames) and after the early raises on an invalid
reference index or an invalid `points_index` argument. -/
theorem rmsd_one_vs_all_restores_current (svd : SvdOracle) (s : Structure)
    (ref : ℕ) (pidx : PointsArg) (align : Bool) (N : ℕ)
    (h0 : 0 ≤ s.current) (h1 : s.current < (s.coordinates.length : ℤ))
    (hN : ∀ f ∈ s.coordinates, f.length = N) :
    (s.rmsd_one_vs_all svd ref pidx align).1.current = s.current := by
  simp only [Structure.rmsd_one_vs_all]
  by_cases href : (s.coordinates.length : ℤ) ≤ (ref : ℤ)
  · rw [if_pos href]
  · rw [if_neg href]
    have hrefF : ref < s.coordinates.length := by omega
    cases hm1 : pidxSelect pidx (s.frame ref) with
    | error e => rfl
    | ok m1 =>
      have hsel : pidxOK pidx N :=
        pidxOK_of_select_ok pidx N (s.frame ref) m1
          (hN _ (frame_mem s ref hrefF)) hm1
      obtain ⟨s', lst, heq, hlen, _, _, _, _⟩ :=
        rovLoop_spec svd pidx align ref
          (m1.map (fun p => vsub p (vdiv (vsum m1) m1.length)))
          (sqsum (m1.map (fun p => vsub p (vdiv (vsum m1) m1.length))))
          m1.length N (List.range s.coordinates.length) s []
          (fun j hj => List.mem_range.mp hj) (List.nodup_range _) hN hsel
      dsimp only
      rw [heq]
      dsimp only
      rw [set_current_spec s' s.current h0 (by rw [hlen]; exact h1)]

/-- Witness for `rmsd_one_vs_all_restores_current`: an aligned run on the
five-frame store against reference 2 hands back cursor 0. -/
theorem rmsd_one_vs_all_restores_current_witness :
    (fiveFrameStore.rmsd_one_vs_all svd0 2 (.plist []) true).1.current =
      fiveFrameStore.current :=
  rmsd_one_vs_all_restores_current svd0 fiveFrameStore 2 (.plist []) true 1
    (by decide) (by decide) (by simp [fiveFrameStore])

/-! ### Claim C3 — the rotation applied by aligned `rmsd_one_vs_all` -/

/-- Claim C3 (amended): with `align=true` and the default point selection,
every non-reference frame `i` of a well-formed store ends as its own
original points right-multiplied by `rovRotation` — the product `V·Wt` of
the SVD collaborator's *raw* output on the cross-covariance of the centred
frame against the centred reference.  The source applies this matrix
*before* the reflection test `det(V)·det(Wt) == -1` runs, so the later sign
flips of `S[-1]` and `V[:, -1]` only affect the reported RMSD value, never
the matrix already applied; when the test fires, the matrix that was applied
has determinant −1 (a reflection), not +1.  The reference frame itself is
never rewritten. -/
theorem rmsd_one_vs_all_applies_raw_rotation (svd : SvdOracle)
    (s : Structure) (ref i N : ℕ)
    (h0 : 0 ≤ s.current) (h1 : s.current < (s.coordinates.length : ℤ))
    (hN : ∀ f ∈ s.coordinates, f.length = N)
    (href : ref < s.coordinates.length) (hi : i < s.coordinates.length)
    (hir : i ≠ ref) :
    (s.rmsd_one_vs_all svd ref (.plist []) true).1.coordinates.get? i =
      some ((s.frame i).map (fun p =>
        vecMulMat p (rovRotation svd (centerFrame (s.frame ref))
          (s.frame ref).length (s.frame i)))) ∧
    (s.rmsd_one_vs_all svd ref (.plist []) true).1.coordinates.get? ref =
      s.coordinates.get? ref := by
  simp only [Structure.rmsd_one_vs_all]
  rw [if_neg (by omega : ¬ (s.coordinates.length : ℤ) ≤ (ref : ℤ))]
  rw [select_default]
  dsimp only
  obtain ⟨s', lst, heq, hlen, _, _, hpres, htr⟩ :=
    rovLoop_spec svd (.plist []) true ref
      ((s.frame ref).map (fun p =>
        vsub p (vdiv (vsum (s.frame ref)) (s.frame ref).length)))
      (sqsum ((s.frame ref).map (fun p =>
        vsub p (vdiv (vsum (s.frame ref)) (s.frame ref).length))))
      (s.frame ref).length N (List.range s.coordinates.length) s []
      (fun j hj => List.mem_range.mp hj) (List.nodup_range _) hN
      (by simp [pidxOK])
  rw [heq]
  dsimp only
  rw [set_current_spec s' s.current h0 (by rw [hlen]; exact h1)]
  constructor
  · have hx := htr rfl rfl i (List.mem_range.mpr hi) hir
    simpa [centerFrame] using hx
  · exact hpres ref (Or.inr rfl)

/-- Reference frame of the reflection counterexample: the six axis unit
points. -/
def f0 : Frame := [(1, 0, 0), (-1, 0, 0), (0, 1, 0), (0, -1, 0), (0, 0, 1), (0, 0, -1)]

/-- Its mirror image through the `z = 0` plane (points reordered so the
correspondence is the identity): no proper rotation maps `f1` onto `f0`. -/
def f1 : Frame := [(1, 0, 0), (-1, 0, 0), (0, 1, 0), (0, -1, 0), (0, 0, -1), (0, 0, 1)]

/-- A two-frame store holding the mirror pair. -/
def mirrorStore : Structure := ⟨[f0, f1], 0, (0, 0, 0)⟩

/-- The SVD the numerical library would report for the cross-covariance
`diag(2, 2, -2)` of the mirror pair: `V = I`, `S = (2, 2, 2)`,
`Wt = diag(1, 1, -1)` (a constant oracle; the counterexample proves the
triple is a genuine SVD of the concrete input the source feeds it). -/
def svdRefl : SvdOracle := fun _ => ⟨idM3, (2, 2, 2), ((1, 0, 0), (0, 1, 0), (0, 0, -1))⟩

/-- The cross-covariance matrix `np.dot(m2.T, m1)` the source builds for
frame 1 against reference frame 0 of `mirrorStore`. -/
def mirrorX : M3 := crossMat (centerFrame f1) (centerFrame f0)

/-- `diag(S)` of a singular-value triple. -/
def diagS (v : V3) : M3 := ((v.1, 0, 0), (0, v.2.1, 0), (0, 0, v.2.2))

/-- Claim C3 counterexample: on the mirror-pair store the oracle's triple is
a genuine SVD of the cross-covariance the source computes (factorisation,
orthogonality of both factors, singular values `(2,2,2)`), its determinants
multiply to −1 (the reflection case of the claim) — and the aligned run
rewrites frame 1 with the *uncorrected* product `V·Wt`, a matrix of
determinant −1 that maps `f1` to its mirror image `f0`.  The corrected
rotation (after the sign flip of `V[:, -1]`) is the identity, so the claimed
behaviour — applying the reflection-corrected, determinant +1 rotation —
would have left frame 1 at `f1 ≠ f0`. -/
theorem rmsd_one_vs_all_reflection_cex :
    (matMul (matMul (svdRefl mirrorX).V (diagS (svdRefl mirrorX).S))
        (svdRefl mirrorX).Wt = mirrorX ∧
      matMul (transpose3 (svdRefl mirrorX).V) (svdRefl mirrorX).V = idM3 ∧
      matMul (transpose3 (svdRefl mirrorX).Wt) (svdRefl mirrorX).Wt = idM3 ∧
      (svdRefl mirrorX).S = (2, 2, 2)) ∧
    det3 (svdRefl mirrorX).V * det3 (svdRefl mirrorX).Wt = -1 ∧
    (mirrorStore.rmsd_one_vs_all svdRefl 0 (.plist []) true).1.coordinates =
      [f0, f0] ∧
    List.map (fun p => vecMulMat p
      (matMul (svdRefl mirrorX).V (svdRefl mirrorX).Wt)) f1 = f0 ∧
    det3 (matMul (svdRefl mirrorX).V (svdRefl mirrorX).Wt) = -1 ∧
    matMul (flipLastCol (svdRefl mirrorX).V) (svdRefl mirrorX).Wt = idM3 ∧
    f1 ≠ f0 := by
  refine ⟨⟨?_, ?_, ?_, rfl⟩, ?_, ?_, ?_, ?_, ?_, ?_⟩ <;>
    norm_num [Structure.rmsd_one_vs_all, mirrorStore, mirrorX, f0, f1,
      svdRefl, rovLoop, pidxSelect, Structure.frame, Structure.set_current,
      Structure.points, Structure.apply_transformation, npGet, npSet,
      get_center_of, vdiv, vsum, vadd, vsub, vecMulMat, smulV, matMul,
      crossMat, outer, madd, centerFrame, sqsum, vdot, det3, idM3, sumV,
      negLast, diagS, transpose3, flipLastCol, List.zip, List.zipWith]

/-- Witness for `rmsd_one_vs_all_applies_raw_rotation` on the mirror-pair
store: frame 1 ends as `f1` rotated by the raw `V·Wt`. -/
theorem rmsd_one_vs_all_applies_raw_rotation_witness :
    (mirrorStore.rmsd_one_vs_all svdRefl 0 (.plist []) true).1.coordinates.get? 1 =
      some ((mirrorStore.frame 1).map (fun p =>
        vecMulMat p (rovRotation svdRefl (centerFrame (mirrorStore.frame 0))
          (mirrorStore.frame 0).length (mirrorStore.frame 1)))) ∧
    (mirrorStore.rmsd_one_vs_all svdRefl 0 (.plist []) true).1.coordinates.get? 0 =
      mirrorStore.coordinates.get? 0 :=
  rmsd_one_vs_all_applies_raw_rotation svdRefl mirrorStore 0 1 6
    (by decide) (by decide) (by simp [mirrorStore, f0, f1]) (by decide)
    (by decide) (by decide)

/-! ### Claim C7 — `rmsd_distance_matrix` shape, symmetry, diagonal -/

lemma rmsd_ok (svd : SvdOracle) (s : Structure) (i j : ℕ)
    (hi : i < s.coordinates.length) (hj : j < s.coordinates.length) :
    ∃ r, s.rmsd svd i j (.plist []) = .ok r := by
  unfold Structure.rmsd
  rw [if_neg (by omega), if_neg (by omega), select_default, select_default]
  exact ⟨_, rfl⟩

lemma sum_map_succ (l : List ℕ) (g : ℕ → ℕ) :
    (l.map (fun i => g i + 1)).sum = (l.map g).sum + l.length := by
  induction l with
  | nil => simp
  | cons x xs ih => simp [ih]; omega

lemma sum_range_sub (m : ℕ) :
    (((List.range m).map (fun i => m - i)).sum) * 2 = m * (m + 1) := by
  induction m with
  | zero => simp
  | succ k ih =>
    rw [List.range_succ, List.map_append, List.sum_append]
    have hcong : (List.range k).map (fun i => k + 1 - i) =
        (List.range k).map (fun i => (k - i) + 1) := by
      apply List.map_congr_left
      intro i hi
      have : i < k := List.mem_range.mp hi
      omega
    rw [hcong, sum_map_succ, List.length_range]
    simp only [List.map_cons, List.map_nil, List.sum_cons, List.sum_nil]
    have hk : k + 1 - k = 1 := by omega
    rw [hk]
    zify at ih ⊢
    linear_combination ih

lemma pairList_mem (F : ℕ) (p : ℕ × ℕ) (hp : p ∈ pairList F) :
    p.1 < p.2 ∧ p.2 < F := by
  unfold pairList at hp
  rcases List.mem_flatMap.mp hp with ⟨i, hi, hmem⟩
  rcases List.mem_map.mp hmem with ⟨j, hj, rfl⟩
  have h1 := List.mem_range.mp hi
  have h2 := List.mem_range'.mp hj
  constructor <;> simp <;> omega

lemma pairList_length (F : ℕ) : (pairList F).length = F * (F - 1) / 2 := by
  have h2 : (pairList F).length * 2 = F * (F - 1) := by
    unfold pairList
    rw [List.length_flatMap]
    have hcong : (List.range (F - 1)).map
        (List.length ∘ fun i => (List.range' (i + 1) (F - 1 - i)).map (fun j => (i, j))) =
        (List.range (F - 1)).map (fun i => (F - 1) - i) := by
      apply List.map_congr_left
      intro i _
      simp [List.length_range']
    rw [hcong, sum_range_sub]
    cases F with
    | zero => simp
    | succ k => simp [Nat.mul_comm]
  generalize hX : F * (F - 1) = X at h2 ⊢
  omega

lemma getD_set_ne {α : Type} (l : List α) (j b : ℕ) (v d : α) (h : j ≠ b) :
    (l.set j v).getD b d = l.getD b d := by
  induction l generalizing j b with
  | nil => simp
  | cons x xs ih =>
    cases j with
    | zero =>
      cases b with
      | zero => exact absurd rfl h
      | succ b' => simp
    | succ j' =>
      cases b with
      | zero => simp
      | succ b' => simpa using ih j' b' (by omega)

lemma getD_set_eq {α : Type} (l : List α) (j : ℕ) (v d : α)
    (h : j < l.length) : (l.set j v).getD j d = v := by
  induction l generalizing j with
  | nil => simp at h
  | cons x xs ih =>
    cases j with
    | zero => simp
    | succ j' => simpa using ih j' (by simpa using h)

lemma entry_setM_eq (m : List (List ℚ)) (i j : ℕ) (v : ℚ)
    (hi : i < m.length) (hj : j < ((m.get? i).getD []).length) :
    entry (setM m i j v) i j = v := by
  unfold entry setM
  rw [List.get?_set_eq_of_lt _ hi, Option.getD_some]
  exact getD_set_eq _ j v 0 hj

lemma entry_setM_ne (m : List (List ℚ)) (i j a b : ℕ) (v : ℚ)
    (h : a ≠ i ∨ b ≠ j) : entry (setM m i j v) a b = entry m a b := by
  unfold entry setM
  rcases h with h | h
  · rw [List.get?_set_ne _ _ (Ne.symm h)]
  · by_cases hai : a = i
    · subst hai
      by_cases hlen : a < m.length
      · rw [List.get?_set_eq_of_lt _ hlen, Option.getD_some]
        exact getD_set_ne _ j b v 0 (Ne.symm h)
      · rw [List.set_eq_of_length_le (by omega)]
    · rw [List.get?_set_ne _ _ (Ne.symm hai)]

lemma setM_wf (m : List (List ℚ)) (i j : ℕ) (v : ℚ) (F : ℕ)
    (hlen : m.length = F) (hrow : ∀ row ∈ m, row.length = F)
    (hi : i < m.length) :
    (setM m i j v).length = F ∧ ∀ row ∈ setM m i j v, row.length = F := by
  have hmem : (m.get? i).getD [] ∈ m := by
    rw [List.get?_eq_get hi, Option.getD_some]
    exact List.get_mem m i hi
  constructor
  · rw [setM, List.length_set, hlen]
  · intro row hr
    rcases List.mem_or_eq_of_mem_set hr with hr' | hr'
    · exact hrow row hr'
    · rw [hr', List.length_set]
      exact hrow _ hmem

lemma row_len (m : List (List ℚ)) (F i : ℕ)
    (hrow : ∀ row ∈ m, row.length = F) (hi : i < m.length) :
    ((m.get? i).getD []).length = F := by
  have hmem : (m.get? i).getD [] ∈ m := by
    rw [List.get?_eq_get hi, Option.getD_some]
    exact List.get_mem m i hi
  exact hrow _ hmem

/-- One pair-step of the matrix mode — writing `r` at `(i, j)` and `(j, i)` —
preserves shape, symmetry and the zero diagonal. -/
lemma rdm_step_sym (m : List (List ℚ)) (F i j : ℕ) (r : ℚ)
    (hlen : m.length = F) (hrow : ∀ row ∈ m, row.length = F)
    (hij : i < j) (hjF : j < F)
    (hsym : ∀ a b, entry m a b = entry m b a)
    (hdiag : ∀ a, entry m a a = 0) :
    (setM (setM m i j r) j i r).length = F ∧
    (∀ row ∈ setM (setM m i j r) j i r, row.length = F) ∧
    (∀ a b, entry (setM (setM m i j r) j i r) a b =
      entry (setM (setM m i j r) j i r) b a) ∧
    (∀ a, entry (setM (setM m i j r) j i r) a a = 0) ∧
    entry (setM (setM m i j r) j i r) i j = r ∧
    entry (setM (setM m i j r) j i r) j i = r := by
  have hiF : i < F := lt_trans hij hjF
  have hwf1 := setM_wf m i j r F hlen hrow (by omega)
  have hwf2 := setM_wf (setM m i j r) j i r F hwf1.1 hwf1.2 (by omega)
  have hrl1 : ((m.get? i).getD []).length = F := row_len m F i hrow (by omega)
  have hrl2 : (((setM m i j r).get? j).getD []).length = F :=
    row_len _ F j hwf1.2 (by omega)
  have eij : entry (setM (setM m i j r) j i r) i j = r := by
    rw [entry_setM_ne _ _ _ _ _ _ (Or.inl (by omega))]
    exact entry_setM_eq m i j r (by omega) (by omega)
  have eji : entry (setM (setM m i j r) j i r) j i = r :=
    entry_setM_eq (setM m i j r) j i r (by omega) (by omega)
  refine ⟨hwf2.1, hwf2.2, ?_, ?_, eij, eji⟩
  · intro a b
    by_cases h1 : a = i ∧ b = j
    · obtain ⟨rfl, rfl⟩ := h1
      rw [eij, eji]
    · by_cases h2 : a = j ∧ b = i
      · obtain ⟨rfl, rfl⟩ := h2
        rw [eij, eji]
      · have g1 : entry (setM (setM m i j r) j i r) a b = entry m a b := by
          rw [entry_setM_ne _ _ _ _ _ _ (by tauto), entry_setM_ne _ _ _ _ _ _ (by tauto)]
        have g2 : entry (setM (setM m i j r) j i r) b a = entry m b a := by
          rw [entry_setM_ne _ _ _ _ _ _ (by tauto), entry_setM_ne _ _ _ _ _ _ (by tauto)]
        rw [g1, g2, hsym a b]
  · intro a
    have g : entry (setM (setM m i j r) j i r) a a = entry m a a := by
      rw [entry_setM_ne _ _ _ _ _ _ (by omega), entry_setM_ne _ _ _ _ _ _ (by omega)]
    rw [g, hdiag a]

lemma rdmGo_flat_spec (svd : SvdOracle) (s : Structure) :
    ∀ (pairs : List (ℕ × ℕ)) (l : List ℚ),
      (∀ p ∈ pairs, p.1 < s.coordinates.length ∧ p.2 < s.coordinates.length) →
      ∃ l', rdmGo svd s (.plist []) pairs (.flatR l) = .ok (.flatR l') ∧
        l'.length = l.length + pairs.length ∧
        l'.map Except.ok = l.map Except.ok ++
          pairs.map (fun p => s.rmsd svd p.1 p.2 (.plist [])) := by
  intro pairs
  induction pairs with
  | nil =>
    intro l _
    exact ⟨l, rfl, by simp, by simp⟩
  | cons p rest ih =>
    intro l hp
    obtain ⟨i, j⟩ := p
    obtain ⟨r, hr⟩ := rmsd_ok svd s i j (hp (i, j) (List.mem_cons_self _ _)).1
      (hp (i, j) (List.mem_cons_self _ _)).2
    obtain ⟨l', hl', hlen, hmap⟩ := ih (l ++ [r])
      (fun q hq => hp q (List.mem_cons_of_mem _ hq))
    refine ⟨l', ?_, ?_, ?_⟩
    · simp only [rdmGo, hr]
      exact hl'
    · rw [hlen]
      simp
      omega
    · rw [hmap]
      simp [hr]

lemma rdmGo_mat_spec (svd : SvdOracle) (s : Structure) (F : ℕ) :
    ∀ (pairs : List (ℕ × ℕ)) (m : List (List ℚ)),
      (∀ p ∈ pairs, p.1 < p.2 ∧ p.2 < F) →
      pairs.Nodup →
      F = s.coordinates.length →
      m.length = F → (∀ row ∈ m, row.length = F) →
      (∀ a b, entry m a b = entry m b a) → (∀ a, entry m a a = 0) →
      ∃ m', rdmGo svd s (.plist []) pairs (.matR m) = .ok (.matR m') ∧
        m'.length = F ∧ (∀ row ∈ m', row.length = F) ∧
        (∀ a b, entry m' a b = entry m' b a) ∧ (∀ a, entry m' a a = 0) ∧
        (∀ a b : ℕ, a < b → (a, b) ∉ pairs → entry m' a b = entry m a b) ∧
        (∀ p ∈ pairs, ∃ r, s.rmsd svd p.1 p.2 (.plist []) = .ok r ∧
          entry m' p.1 p.2 = r) := by
  intro pairs
  induction pairs with
  | nil =>
    intro m _ _ _ hlen hrow hsym hdiag
    exact ⟨m, rfl, hlen, hrow, hsym, hdiag, fun a b _ _ => rfl,
      fun p hp => absurd hp (List.not_mem_nil p)⟩
  | cons p rest ih =>
    intro m hp hnd hF hlen hrow hsym hdiag
    obtain ⟨i, j⟩ := p
    have hij := (hp (i, j) (List.mem_cons_self _ _)).1
    have hjF := (hp (i, j) (List.mem_cons_self _ _)).2
    have hnotin : (i, j) ∉ rest := (List.nodup_cons.mp hnd).1
    obtain ⟨r, hr⟩ := rmsd_ok svd s i j (by omega) (by omega)
    obtain ⟨h1, h2, h3, h4, heij, _⟩ :=
      rdm_step_sym m F i j r hlen hrow hij hjF hsym hdiag
    obtain ⟨m', hm', hg1, hg2, hg3, hg4, hpres, hcov⟩ :=
      ih (setM (setM m i j r) j i r)
        (fun q hq => hp q (List.mem_cons_of_mem _ hq))
        (List.nodup_cons.mp hnd).2 hF h1 h2 h3 h4
    refine ⟨m', ?_, hg1, hg2, hg3, hg4, ?_, ?_⟩
    · simp only [rdmGo, hr]
      exact hm'
    · intro a b hab hmem
      have hne1 : ¬ (a = i ∧ b = j) := by
        rintro ⟨rfl, rfl⟩
        exact hmem (List.mem_cons_self _ _)
      have h5 : entry m' a b = entry (setM (setM m i j r) j i r) a b :=
        hpres a b hab (fun hm2 => hmem (List.mem_cons_of_mem _ hm2))
      rw [h5, entry_setM_ne _ _ _ _ _ _ (by omega : a ≠ j ∨ b ≠ i),
        entry_setM_ne _ _ _ _ _ _ (by tauto : a ≠ i ∨ b ≠ j)]
    · intro q hq
      rcases List.mem_cons.mp hq with hq' | hq'
      · subst hq'
        refine ⟨r, hr, ?_⟩
        have h5 : entry m' i j = entry (setM (setM m i j r) j i r) i j :=
          hpres i j hij hnotin
        rw [h5, heij]
      · exact hcov q hq'

lemma pairList_nodup (F : ℕ) : (pairList F).Nodup := by
  unfold pairList
  rw [List.nodup_flatMap]
  constructor
  · intro i _
    exact (List.nodup_range' _ _ _).map (fun a b h => by simpa using h)
  · have hnd : (List.range (F - 1)).Pairwise (· ≠ ·) := List.nodup_range _
    refine hnd.imp ?_
    intro a b hab x hxa hxb
    rcases List.mem_map.mp hxa with ⟨j1, _, rfl⟩
    rcases List.mem_map.mp hxb with ⟨j2, _, hx⟩
    exact hab (congrArg Prod.fst hx).symm

/-- Claim C7: for every store and every SVD collaborator,
`rmsd_distance_matrix` with `flat=false` returns an `F×F` matrix that is
symmetric with an all-zero diagonal (entries read as 0 outside the matrix,
so the symmetry and diagonal statements are unconditional) and whose
upper-triangle entry at each loop pair `(i, j)`, `i < j`, is the pairwise
RMSD `rmsd(i, j)`; and with `flat=true` returns exactly the `F·(F−1)/2`
upper-triangular values as a sequence — entry by entry, the flat list is the
pairwise RMSD of each pair of `pairList F`, the double loop's `i < j`
visiting order. -/
theorem rmsd_distance_matrix_props (svd : SvdOracle) (s : Structure) :
    (∃ m, s.rmsd_distance_matrix svd (.plist []) false = .ok (.matR m) ∧
      m.length = s.coordinates.length ∧
      (∀ row ∈ m, row.length = s.coordinates.length) ∧
      (∀ i j, entry m i j = entry m j i) ∧
      (∀ i, entry m i i = 0) ∧
      (∀ p ∈ pairList s.coordinates.length,
        ∃ r, s.rmsd svd p.1 p.2 (.plist []) = .ok r ∧ entry m p.1 p.2 = r)) ∧
    (∃ l, s.rmsd_distance_matrix svd (.plist []) true = .ok (.flatR l) ∧
      l.length = s.coordinates.length * (s.coordinates.length - 1) / 2 ∧
      l.map Except.ok = (pairList s.coordinates.length).map
        (fun p => s.rmsd svd p.1 p.2 (.plist []))) := by
  constructor
  · have hz : ∀ a b, entry (zerosM s.coordinates.length) a b = 0 := by
      intro a b
      unfold entry zerosM
      cases hx : (List.replicate s.coordinates.length
          (List.replicate s.coordinates.length (0 : ℚ))).get? a with
      | none => simp
      | some row =>
        have hrow : row = List.replicate s.coordinates.length 0 :=
          List.eq_of_mem_replicate (List.get?_mem hx)
        subst hrow
        simp only [Option.getD_some]
        cases hy : (List.replicate s.coordinates.length (0 : ℚ)).get? b with
        | none => simp [List.getD, hy]
        | some v =>
          have hv : v = 0 := List.eq_of_mem_replicate (List.get?_mem hy)
          simp [List.getD, hy, hv]
    obtain ⟨m, hm, hres1, hres2, hres3, hres4, _, hcov⟩ :=
      rdmGo_mat_spec svd s s.coordinates.length
        (pairList s.coordinates.length) (zerosM s.coordinates.length)
        (fun p hp => pairList_mem _ p hp) (pairList_nodup _) rfl
        (by simp [zerosM]) (fun row hr => by
          rw [List.eq_of_mem_replicate hr]
          simp)
        (fun a b => by rw [hz a b, hz b a]) (fun a => hz a a)
    exact ⟨m, hm, hres1, hres2, hres3, hres4, hcov⟩
  · obtain ⟨l, hl, hlen, hmap⟩ := rdmGo_flat_spec svd s
      (pairList s.coordinates.length) []
      (fun p hp => by
        have := pairList_mem _ p hp
        omega)
    refine ⟨l, hl, ?_, ?_⟩
    · rw [hlen, pairList_length]
      simp
    · rw [hmap]
      simp

/-- Witness for `rmsd_distance_matrix_props` on the two-frame store: one
flat value, `F·(F−1)/2 = 1`, equal entry by entry to the pairwise RMSDs over
the upper-triangle pair list. -/
theorem rmsd_distance_matrix_props_witness :
    ∃ l, twoFrameStore.rmsd_distance_matrix svd0 (.plist []) true =
        .ok (.flatR l) ∧
      l.length = twoFrameStore.coordinates.length *
        (twoFrameStore.coordinates.length - 1) / 2 ∧
      l.map Except.ok = (pairList twoFrameStore.coordinates.length).map
        (fun p => twoFrameStore.rmsd svd0 p.1 p.2 (.plist [])) :=
  (rmsd_distance_matrix_props svd0 twoFrameStore).2
